import Mathlib

/-!
Verification of the scylla.rs driver core against its specification.

The definitions below are a shallow embedding of the Rust sources:
bytes are `Nat` values below 256, machine integers are `Nat`/`Int` with
explicit `% 2 ^ w` where the Rust code truncates, fallible code returns
`Option` or `Except`.  Components whose Rust source is absent from the
crate snapshot (the `OpCode` byte conversion, `RetryableWorker::retry`,
`handle_unprepared_error`, the reporter stream-slot table) are modelled
from the specification text and are marked as such in their doc comments.
-/

namespace Scylla

/-- The CQL frame opcode.  Modelled from the spec: the `OpCode` enum and its
byte values are documented in `header.rs` (`0x00` ERROR .. `0x10` AUTH_SUCCESS,
with `0x04` unassigned) but the enum source file is not in the snapshot. -/
inductive OpCode where
  | error
  | startup
  | ready
  | authenticate
  | options
  | supported
  | query
  | result
  | prepare
  | execute
  | register
  | event
  | batch
  | authChallenge
  | authResponse
  | authSuccess
  deriving DecidableEq, Repr, Fintype

/-- The byte value of each opcode (`opcode as u8` in the Rust source). -/
def OpCode.toByte : OpCode → Nat
  | .error => 0x00
  | .startup => 0x01
  | .ready => 0x02
  | .authenticate => 0x03
  | .options => 0x05
  | .supported => 0x06
  | .query => 0x07
  | .result => 0x08
  | .prepare => 0x09
  | .execute => 0x0A
  | .register => 0x0B
  | .event => 0x0C
  | .batch => 0x0D
  | .authChallenge => 0x0E
  | .authResponse => 0x0F
  | .authSuccess => 0x10

/-- Modelled from the spec: `TryFrom<u8> for OpCode` (opcode source file not in
the snapshot); the opcode set is closed, any other byte is rejected. -/
def OpCode.fromByte (b : Nat) : Option OpCode :=
  if b = 0x00 then some .error
  else if b = 0x01 then some .startup
  else if b = 0x02 then some .ready
  else if b = 0x03 then some .authenticate
  else if b = 0x05 then some .options
  else if b = 0x06 then some .supported
  else if b = 0x07 then some .query
  else if b = 0x08 then some .result
  else if b = 0x09 then some .prepare
  else if b = 0x0A then some .execute
  else if b = 0x0B then some .register
  else if b = 0x0C then some .event
  else if b = 0x0D then some .batch
  else if b = 0x0E then some .authChallenge
  else if b = 0x0F then some .authResponse
  else if b = 0x10 then some .authSuccess
  else none

theorem OpCode.fromByte_toByte (op : OpCode) : OpCode.fromByte op.toByte = some op := by
  cases op <;> rfl

/-- The 9-byte CQL frame header (`Header` in `cql/frame/header.rs`).
`version` and `flags` are the raw `u8` fields, `stream` the `u16` stream id,
`body_len` the `u32` body length. -/
structure Header where
  version : Nat
  flags : Nat
  stream : Nat
  opcode : OpCode
  body_len : Nat
  deriving DecidableEq, Repr

/-- Field bounds that the Rust representation (`u8`/`u16`/`u32`) guarantees. -/
def Header.WF (h : Header) : Prop :=
  h.version < 256 ∧ h.flags < 256 ∧ h.stream < 2 ^ 16 ∧ h.body_len < 2 ^ 32

instance (h : Header) : Decidable h.WF := by
  unfold Header.WF
  infer_instance

/-- `impl Into<[u8; 9]> for Header`: version, flags, big-endian stream id,
opcode byte, big-endian body length. -/
def Header.toBytes (h : Header) : List Nat :=
  [h.version,
   h.flags,
   h.stream / 2 ^ 8 % 256,
   h.stream % 256,
   h.opcode.toByte,
   h.body_len / 2 ^ 24 % 256,
   h.body_len / 2 ^ 16 % 256,
   h.body_len / 2 ^ 8 % 256,
   h.body_len % 256]

/-- `impl TryFrom<&[u8]> for Header`: require exactly 9 bytes, decode the
opcode byte through the closed opcode set, and read the big-endian fields. -/
def Header.tryFrom (bytes : List Nat) : Option Header :=
  if bytes.length = 9 then
    (OpCode.fromByte (bytes.getD 4 0)).map fun op =>
      { version := bytes.getD 0 0
        flags := bytes.getD 1 0
        stream := bytes.getD 2 0 * 256 + bytes.getD 3 0
        opcode := op
        body_len := ((bytes.getD 5 0 * 256 + bytes.getD 6 0) * 256 + bytes.getD 7 0) * 256 + bytes.getD 8 0 }
  else none

/-- C1: For every well-formed CQL frame header, encoding it to its 9-byte wire
form and decoding those bytes yields the header back unchanged: version byte,
flags byte, big-endian 16-bit stream id, opcode byte, and big-endian 32-bit
body length are all preserved. -/
theorem header_decode_encode (h : Header) (hw : h.WF) :
    Header.tryFrom h.toBytes = some h := by
  obtain ⟨hv, hf, hs, hb⟩ := hw
  cases h with
  | mk version flags stream opcode body_len =>
    simp only [Header.WF] at hv hf hs hb
    simp [Header.toBytes, Header.tryFrom, List.getD, OpCode.fromByte_toByte,
      Header.mk.injEq]
    omega

/-- Witness for C1 at a concrete response header. -/
theorem header_decode_encode_witness :
    Header.tryFrom (Header.toBytes ⟨0x84, 0x02, 0x01F4, .result, 1000⟩) =
      some ⟨0x84, 0x02, 0x01F4, .result, 1000⟩ :=
  header_decode_encode ⟨0x84, 0x02, 0x01F4, .result, 1000⟩ (by decide)

theorem OpCode.fromByte_eq_none (b : Nat) (h : ∀ op : OpCode, op.toByte ≠ b) :
    OpCode.fromByte b = none := by
  have h0 : ¬ b = 0x00 := fun hb => h .error hb.symm
  have h1 : ¬ b = 0x01 := fun hb => h .startup hb.symm
  have h2 : ¬ b = 0x02 := fun hb => h .ready hb.symm
  have h3 : ¬ b = 0x03 := fun hb => h .authenticate hb.symm
  have h4 : ¬ b = 0x05 := fun hb => h .options hb.symm
  have h5 : ¬ b = 0x06 := fun hb => h .supported hb.symm
  have h6 : ¬ b = 0x07 := fun hb => h .query hb.symm
  have h7 : ¬ b = 0x08 := fun hb => h .result hb.symm
  have h8 : ¬ b = 0x09 := fun hb => h .prepare hb.symm
  have h9 : ¬ b = 0x0A := fun hb => h .execute hb.symm
  have h10 : ¬ b = 0x0B := fun hb => h .register hb.symm
  have h11 : ¬ b = 0x0C := fun hb => h .event hb.symm
  have h12 : ¬ b = 0x0D := fun hb => h .batch hb.symm
  have h13 : ¬ b = 0x0E := fun hb => h .authChallenge hb.symm
  have h14 : ¬ b = 0x0F := fun hb => h .authResponse hb.symm
  have h15 : ¬ b = 0x10 := fun hb => h .authSuccess hb.symm
  unfold OpCode.fromByte
  rw [if_neg h0, if_neg h1, if_neg h2, if_neg h3, if_neg h4, if_neg h5, if_neg h6,
    if_neg h7, if_neg h8, if_neg h9, if_neg h10, if_neg h11, if_neg h12, if_neg h13,
    if_neg h14, if_neg h15]

/-- C7: Header decoding fails on malformed input: every byte slice whose length
is not 9 is rejected, and every 9-byte slice whose fifth byte is not one of the
defined opcode byte values is rejected; in both cases no header is produced. -/
theorem header_tryFrom_malformed (bytes : List Nat) :
    (bytes.length ≠ 9 → Header.tryFrom bytes = none) ∧
    (bytes.length = 9 → (∀ op : OpCode, op.toByte ≠ bytes.getD 4 0) →
      Header.tryFrom bytes = none) := by
  constructor
  · intro hlen
    simp [Header.tryFrom, hlen]
  · intro hlen hop
    have h4 : (4 : Nat) < bytes.length := by omega
    have hop' : ∀ op : OpCode, op.toByte ≠ bytes[4] := by
      intro op
      have hx := hop op
      rwa [List.getD_eq_getElem?_getD, List.getElem?_eq_getElem h4, Option.getD_some] at hx
    simp [Header.tryFrom, hlen, OpCode.fromByte_eq_none _ hop']

/-- Witness for C7: an 8-byte slice is rejected, and a 9-byte slice whose
opcode byte is `0x11` (undefined) is rejected. -/
theorem header_tryFrom_malformed_witness :
    Header.tryFrom [0x84, 0, 0, 0, 8, 0, 0, 0] = none ∧
    Header.tryFrom [0x84, 0, 0, 0, 0x11, 0, 0, 0, 0] = none :=
  ⟨(header_tryFrom_malformed [0x84, 0, 0, 0, 8, 0, 0, 0]).1 (by decide),
   (header_tryFrom_malformed [0x84, 0, 0, 0, 0x11, 0, 0, 0, 0]).2 (by decide) (by decide)⟩

/-- The four big-endian bytes of a 32-bit value, as produced by
`i32::to_be_bytes(len as i32)` for a `usize` length (truncating casts). -/
def u32be (n : Nat) : List Nat :=
  [n / 2 ^ 24 % 256, n / 2 ^ 16 % 256, n / 2 ^ 8 % 256, n % 256]

/-- The unsigned value that four big-endian bytes denote. -/
def u32beValue (b : List Nat) : Nat :=
  ((b.getD 0 0 * 256 + b.getD 1 0) * 256 + b.getD 2 0) * 256 + b.getD 3 0

/-- `FrameBuilder::build` from `cql/frame/mod.rs`: take the body length, append
the 5 header bytes and the big-endian length to the body buffer, then rotate
the buffer right by 9 so the header and length land in front (`rotate_right(9)`
is a left rotation by `len - 9`). -/
def FrameBuilder.build (header : List Nat) (body : List Nat) : List Nat :=
  let len := body.length
  let extended := body ++ header ++ u32be len
  extended.rotate (extended.length - 9)

/-- C5: For every 5-byte header prefix and every body, `FrameBuilder::build`
returns the 5 header bytes, then the body length as a big-endian 32-bit
integer, then the body itself — a buffer of `9 + |body|` bytes whose
body-length field decodes back to the number of body bytes sent. -/
theorem frameBuilder_build_spec (header body : List Nat)
    (h5 : header.length = 5) (hlen : body.length < 2 ^ 32) :
    FrameBuilder.build header body = header ++ u32be body.length ++ body ∧
    (FrameBuilder.build header body).length = 9 + body.length ∧
    u32beValue (u32be body.length) = body.length := by
  have hext : (body ++ header ++ u32be body.length).length = body.length + 9 := by
    simp [u32be, h5]
  have hrot : FrameBuilder.build header body = header ++ u32be body.length ++ body := by
    show (body ++ header ++ u32be body.length).rotate
        ((body ++ header ++ u32be body.length).length - 9) =
      header ++ u32be body.length ++ body
    rw [hext]
    have hle : body.length + 9 - 9 ≤ (body ++ header ++ u32be body.length).length := by
      rw [hext]; omega
    rw [List.rotate_eq_drop_append_take hle]
    have h1 : body.length + 9 - 9 = body.length := by omega
    rw [h1, List.append_assoc, List.drop_left, List.take_left]
  refine ⟨hrot, ?_, ?_⟩
  · rw [hrot]
    simp [u32be, h5]
    omega
  · show ((body.length / 2 ^ 24 % 256 * 256 + body.length / 2 ^ 16 % 256) * 256 +
        body.length / 2 ^ 8 % 256) * 256 + body.length % 256 = body.length
    omega

/-- Witness for C5 at a concrete header and 3-byte body. -/
theorem frameBuilder_build_spec_witness :
    FrameBuilder.build [4, 0, 0, 0, 9] [1, 2, 3] =
      [4, 0, 0, 0, 9] ++ u32be 3 ++ [1, 2, 3] :=
  (frameBuilder_build_spec [4, 0, 0, 0, 9] [1, 2, 3] (by decide) (by decide)).1

/-- The CQL server error classes (`ErrorCodes` in `cql/frame/error.rs`,
values listed in the spec's error table). -/
inductive ErrorCode where
  | serverError
  | protocolError
  | authError
  | unavailable
  | overloaded
  | isBootstrapping
  | truncateError
  | writeTimeout
  | readTimeout
  | readFailure
  | functionFailure
  | writeFailure
  | syntaxError
  | unauthorized
  | invalid
  | configError
  | alreadyExists
  | unprepared
  deriving DecidableEq, Repr

/-- A server CQL error: its class, and (for Unprepared) the 16-byte prepared
statement id it carries. -/
structure CqlError where
  code : ErrorCode
  uid : List Nat
  deriving DecidableEq, Repr

/-- Modelled from the spec: `CqlError::take_unprepared_id` (the error body
parser is not in the snapshot) yields the carried prepared id exactly when the
error class is Unprepared (0x2500). -/
def CqlError.takeUnpreparedId (e : CqlError) : Option (List Nat) :=
  if e.code = .unprepared then some e.uid else none

/-- The error a worker receives (`WorkerError`): a server CQL error or any
other driver-side error. -/
inductive WorkerError where
  | cql (e : CqlError)
  | other
  deriving DecidableEq, Repr

/-- The `ValueWorker` state from `scylla/src/worker/value.rs`: the retry
counter and the paging parameters used when re-sending. -/
structure ValueWorker where
  retries : Nat
  page_size : Option Int
  paging_state : Option (List Nat)
  deriving DecidableEq, Repr

/-- What `ValueWorker::handle_error` does with an error: hand it to the
reprepare path, re-send the request with a decremented counter, or surface it
to the response handle. -/
inductive ValueAction where
  | reprepare (id : List Nat)
  | retried (w : ValueWorker)
  | surfaced (e : WorkerError)
  deriving DecidableEq, Repr

/-- The retry block at the end of `ValueWorker::handle_error`: if the retry
counter is positive, decrement it and re-send the select query; otherwise
surface the error to the handle ("no more retries"). -/
def ValueWorker.retryOrSurface (w : ValueWorker) (error : WorkerError) : ValueAction :=
  if w.retries > 0 then .retried { w with retries := w.retries - 1 }
  else .surfaced error

/-- `ValueWorker::handle_error` from `scylla/src/worker/value.rs`: if the error
carries an unprepared id and a reporter handle is present, enter the reprepare
path; otherwise run the retry block. -/
def ValueWorker.handle_error (w : ValueWorker) (error : WorkerError) (reporter : Bool) :
    ValueAction :=
  let unpreparedId := match error with
    | .cql c => c.takeUnpreparedId
    | .other => none
  match unpreparedId, reporter with
  | some id, true => .reprepare id
  | _, _ => ValueWorker.retryOrSurface w error

theorem CqlError.takeUnpreparedId_eq_some (c : CqlError) (id : List Nat)
    (h : c.takeUnpreparedId = some id) : c.code = .unprepared ∧ id = c.uid := by
  unfold CqlError.takeUnpreparedId at h
  by_cases hc : c.code = .unprepared
  · rw [if_pos hc] at h
    exact ⟨hc, (Option.some.injEq _ _ ▸ h).symm⟩
  · rw [if_neg hc] at h
    exact absurd h (by simp)

theorem ValueWorker.handle_error_cases (w : ValueWorker) (e : WorkerError) (rep : Bool) :
    (∃ c, e = .cql c ∧ c.code = .unprepared ∧ rep = true ∧
      ValueWorker.handle_error w e rep = .reprepare c.uid) ∨
    ValueWorker.handle_error w e rep = ValueWorker.retryOrSurface w e := by
  unfold ValueWorker.handle_error
  rcases e with ce | _
  · rcases hm : ce.takeUnpreparedId with _ | id
    · right
      cases rep <;> simp [hm]
    · cases rep
      · right; simp [hm]
      · left
        obtain ⟨hc, hid⟩ := CqlError.takeUnpreparedId_eq_some ce id hm
        exact ⟨ce, rfl, hc, rfl, by simp [hm, hid]⟩
  · right
    cases rep <;> simp

/-- The `SelectWorker` state from `scylla-rs/src/app/worker/select.rs`. -/
structure SelectWorker where
  retries : Nat
  statement : List Nat
  page_size : Option Int
  paging_state : Option (List Nat)
  deriving DecidableEq, Repr

/-- Modelled from the spec: `RetryableWorker::retry` (trait default, not in the
snapshot): if retries remain, decrement the counter and re-route the request,
returning the updated worker; otherwise give the worker back for surfacing. -/
def SelectWorker.retry (w : SelectWorker) : Except SelectWorker SelectWorker :=
  if w.retries > 0 then .ok { w with retries := w.retries - 1 }
  else .error w

/-- An action a worker performs on the reporter connection it was given. -/
inductive ReporterEvent where
  | sendPrepare (reporterId : Nat) (statement : List Nat)
  | resendExecute (reporterId : Nat) (statement : List Nat)
  deriving DecidableEq, Repr

/-- Modelled from the spec: `handle_unprepared_error` (not in the snapshot):
send a PREPARE for the statement on the SAME reporter connection, park the
original request until the Prepared response arrives, then re-send the
original EXECUTE there; fail if the recovery cannot be set up
(`prepareOk = false`). -/
def handle_unprepared_error (reporterId : Nat) (statement : List Nat) (prepareOk : Bool) :
    Except Unit (List ReporterEvent) :=
  if prepareOk then
    .ok [.sendPrepare reporterId statement, .resendExecute reporterId statement]
  else .error ()

/-- The outcome of `SelectWorker::handle_error`. -/
inductive SelectOutcome where
  | parked
  | retried (w : SelectWorker)
  | surfaced (e : WorkerError)
  deriving DecidableEq, Repr

/-- `SelectWorker::handle_error` from `scylla-rs/src/app/worker/select.rs`:
an Unprepared CQL error with a reporter available goes through
`handle_unprepared_error`, falling back to the handle if that fails; every
other error (and Unprepared without a reporter) goes through `retry`, and is
surfaced to the handle only when `retry` reports the counter exhausted. -/
def SelectWorker.handle_error (w : SelectWorker) (error : WorkerError)
    (reporter : Option Nat) (prepareOk : Bool) : List ReporterEvent × SelectOutcome :=
  match error with
  | .cql c =>
    if c.code = .unprepared then
      match reporter with
      | some rid =>
        match handle_unprepared_error rid w.statement prepareOk with
        | .ok evs => (evs, .parked)
        | .error _ => ([], .surfaced error)
      | none =>
        match w.retry with
        | .ok w' => ([], .retried w')
        | .error _ => ([], .surfaced error)
    else
      match w.retry with
      | .ok w' => ([], .retried w')
      | .error _ => ([], .surfaced error)
  | .other =>
    match w.retry with
    | .ok w' => ([], .retried w')
    | .error _ => ([], .surfaced error)

/-- C2 counterexample: a Syntax error on a worker with one retry left is NOT
surfaced to the caller; both worker variants re-send the request instead
(retry counter 1 → 0), so surfacing is not independent of the retry count. -/
theorem syntax_error_retried_counterexample :
    ValueWorker.handle_error ⟨1, none, none⟩ (.cql ⟨.syntaxError, []⟩) false ≠
      .surfaced (.cql ⟨.syntaxError, []⟩) ∧
    ValueWorker.handle_error ⟨1, none, none⟩ (.cql ⟨.syntaxError, []⟩) false =
      .retried ⟨0, none, none⟩ ∧
    (SelectWorker.handle_error ⟨1, [], none, none⟩ (.cql ⟨.syntaxError, []⟩) none true).2 =
      .retried ⟨0, [], none, none⟩ := by
  refine ⟨?_, rfl, rfl⟩
  decide

/-- C2 amended: for every CQL error whose class is not Unprepared (in
particular Syntax, Invalid, Unauthorized, AlreadyExists, ConfigError,
ProtocolError, AuthError, TruncateError), both worker variants treat the error
like any other retryable error: surface it immediately only when the retry
counter is 0, and otherwise retry with the counter decremented. -/
theorem non_unprepared_error_uniform_retry (wv : ValueWorker) (ws : SelectWorker)
    (e : CqlError) (rep : Bool) (rido : Option Nat) (pOk : Bool)
    (hcode : e.code ≠ .unprepared) :
    ValueWorker.handle_error wv (.cql e) rep =
      (if wv.retries > 0 then .retried { wv with retries := wv.retries - 1 }
       else .surfaced (.cql e)) ∧
    SelectWorker.handle_error ws (.cql e) rido pOk =
      ([], if ws.retries > 0 then .retried { ws with retries := ws.retries - 1 }
       else .surfaced (.cql e)) := by
  constructor
  · rcases ValueWorker.handle_error_cases wv (.cql e) rep with ⟨c, hc, hcu, _, _⟩ | heq
    · injection hc with hc
      exact absurd (by rw [hc]; exact hcu) hcode
    · rw [heq]
      rfl
  · simp only [SelectWorker.handle_error, SelectWorker.retry, if_neg hcode]
    by_cases hr : ws.retries > 0 <;> simp [hr]

/-- Witness for the amended C2: a Syntax error on a worker with 0 retries is
surfaced at once by both worker variants. -/
theorem non_unprepared_error_uniform_retry_witness :
    ValueWorker.handle_error ⟨0, none, none⟩ (.cql ⟨.syntaxError, []⟩) true =
      .surfaced (.cql ⟨.syntaxError, []⟩) ∧
    SelectWorker.handle_error ⟨0, [], none, none⟩ (.cql ⟨.syntaxError, []⟩) (some 3) true =
      ([], .surfaced (.cql ⟨.syntaxError, []⟩)) := by
  have h := non_unprepared_error_uniform_retry ⟨0, none, none⟩ ⟨0, [], none, none⟩
    ⟨.syntaxError, []⟩ true (some 3) true (by decide)
  simpa using h

/-- C3: when a worker receives an Unprepared error and a reporter is available,
it sends a PREPARE for its statement on that same connection and re-sends the
original EXECUTE once the Prepared response arrives; the caller is handed an
error only if this recovery fails, and a successful recovery surfaces
nothing. -/
theorem unprepared_recovery (w : SelectWorker) (e : CqlError) (rid : Nat)
    (prepareOk : Bool) (hcode : e.code = .unprepared) :
    (prepareOk = true →
      SelectWorker.handle_error w (.cql e) (some rid) prepareOk =
        ([.sendPrepare rid w.statement, .resendExecute rid w.statement], .parked)) ∧
    (∀ evs err, SelectWorker.handle_error w (.cql e) (some rid) prepareOk =
        (evs, .surfaced err) → prepareOk = false) := by
  simp only [SelectWorker.handle_error, handle_unprepared_error, if_pos hcode]
  cases prepareOk <;> simp

/-- Witness for C3: with the Prepared response delivered, the trace is exactly
PREPARE then the re-sent EXECUTE on reporter 7, and nothing is surfaced. -/
theorem unprepared_recovery_witness :
    SelectWorker.handle_error ⟨0, [0x53], none, none⟩ (.cql ⟨.unprepared, [1]⟩) (some 7) true =
      ([.sendPrepare 7 [0x53], .resendExecute 7 [0x53]], .parked) :=
  (unprepared_recovery ⟨0, [0x53], none, none⟩ ⟨.unprepared, [1]⟩ 7 true rfl).1 rfl

/-- Run `ValueWorker::handle_error` over a sequence of errors, counting the
re-sends: a retry continues the chain with the decremented worker, anything
else ends it. -/
def ValueWorker.runErrors (rep : Bool) : ValueWorker → List WorkerError → Nat
  | _, [] => 0
  | w, e :: es =>
    match w.handle_error e rep with
    | .retried w' => 1 + ValueWorker.runErrors rep w' es
    | _ => 0

/-- C6: every retry strictly decreases the retry counter by one, a worker with
counter 0 never retries and instead delivers the error to its handle, and over
any error sequence the number of retries never exceeds the initial counter
(shown for `ValueWorker::handle_error`; the `RetryableWorker::retry` helper
used by the other workers obeys the same decrement law). -/
theorem retry_monotonicity (w : ValueWorker) (e : WorkerError) (rep : Bool)
    (es : List WorkerError) (ws : SelectWorker) :
    (∀ w', ValueWorker.handle_error w e rep = .retried w' → w'.retries + 1 = w.retries) ∧
    (w.retries = 0 → ∀ w', ValueWorker.handle_error w e rep ≠ .retried w') ∧
    (w.retries = 0 → (∀ id, ValueWorker.handle_error w e rep ≠ .reprepare id) →
      ValueWorker.handle_error w e rep = .surfaced e) ∧
    ValueWorker.runErrors rep w es ≤ w.retries ∧
    (∀ ws', SelectWorker.retry ws = .ok ws' → ws'.retries + 1 = ws.retries) ∧
    (ws.retries = 0 → SelectWorker.retry ws = .error ws) := by
  have hors : ∀ (w : ValueWorker) (e : WorkerError) (w' : ValueWorker),
      ValueWorker.retryOrSurface w e = .retried w' → w'.retries + 1 = w.retries ∧ 0 < w.retries := by
    intro w e w' h
    unfold ValueWorker.retryOrSurface at h
    by_cases hr : w.retries > 0
    · rw [if_pos hr] at h
      injection h with h
      subst h
      refine ⟨?_, hr⟩
      show w.retries - 1 + 1 = w.retries
      omega
    · rw [if_neg hr] at h
      exact ValueAction.noConfusion h
  have hstep : ∀ (w : ValueWorker) (e : WorkerError) (w' : ValueWorker),
      ValueWorker.handle_error w e rep = .retried w' → w'.retries + 1 = w.retries ∧ 0 < w.retries := by
    intro w e w' hr
    rcases ValueWorker.handle_error_cases w e rep with ⟨c, _, _, _, hre⟩ | heq
    · rw [hre] at hr
      exact ValueAction.noConfusion hr
    · rw [heq] at hr
      exact hors w e w' hr
  have hzero : ∀ w', ValueWorker.handle_error w e rep ≠ .retried w' ∨ w.retries ≠ 0 := by
    intro w'
    by_cases hr : ValueWorker.handle_error w e rep = .retried w'
    · right
      have := (hstep w e w' hr).2
      omega
    · left
      exact hr
  refine ⟨fun w' hr => (hstep w e w' hr).1, ?_, ?_, ?_, ?_, ?_⟩
  · intro h0 w' hr
    have := (hstep w e w' hr).2
    omega
  · intro h0 hnorep
    rcases ValueWorker.handle_error_cases w e rep with ⟨c, _, _, _, hre⟩ | heq
    · exact absurd hre (hnorep c.uid)
    · rw [heq]
      unfold ValueWorker.retryOrSurface
      rw [if_neg (by omega)]
  · clear hzero
    induction es generalizing w with
    | nil => simp [ValueWorker.runErrors]
    | cons e' es ih =>
      simp only [ValueWorker.runErrors]
      rcases hact : ValueWorker.handle_error w e' rep with id | w' | e''
      · exact Nat.zero_le _
      · obtain ⟨hw', hpos⟩ := hstep w e' w' hact
        have hih := ih w'
        show 1 + ValueWorker.runErrors rep w' es ≤ w.retries
        omega
      · exact Nat.zero_le _
  · intro ws' hok
    unfold SelectWorker.retry at hok
    by_cases hr : ws.retries > 0
    · rw [if_pos hr] at hok
      injection hok with hok
      subst hok
      show ws.retries - 1 + 1 = ws.retries
      omega
    · rw [if_neg hr] at hok
      exact Except.noConfusion hok
  · intro h0
    unfold SelectWorker.retry
    rw [if_neg (by omega)]

/-- Witness for C6: a worker with 2 retries re-sends at most twice over any
error sequence; here three server errors yield exactly the bound 2. -/
theorem retry_monotonicity_witness :
    ValueWorker.runErrors false ⟨2, none, none⟩
      [.cql ⟨.serverError, []⟩, .cql ⟨.serverError, []⟩, .cql ⟨.serverError, []⟩] ≤ 2 :=
  (retry_monotonicity ⟨2, none, none⟩ (.cql ⟨.serverError, []⟩) false
    [.cql ⟨.serverError, []⟩, .cql ⟨.serverError, []⟩, .cql ⟨.serverError, []⟩]
    ⟨0, [], none, none⟩).2.2.2.1

/-- The signed value of four big-endian bytes (`i32::from_be_bytes`). -/
def i32FromBeBytes (b : List Nat) : Int :=
  let u := ((b.getD 0 0 * 256 + b.getD 1 0) * 256 + b.getD 2 0) * 256 + b.getD 3 0
  if u < 2 ^ 31 then (u : Int) else (u : Int) - 2 ^ 32

/-- The `as usize` cast of an `i32` value on a 64-bit target. -/
def usizeOfI32 (v : Int) : Nat := (v % 2 ^ 64).toNat

/-- The rows iterator state from `scylla-cql/src/frame/rows.rs` (`Iter<T>`):
the response buffer, the declared row count, the rows still to be yielded, and
the cursor into the rows bytes. -/
structure RowsIter where
  buffer : List Nat
  rows_count : Nat
  remaining_rows_count : Nat
  column_start : Nat
  deriving DecidableEq, Repr

/-- `Rows::new` for `Iter<T>`: read the big-endian `i32` row count at the
start of the rows section, set both counters to it (`as usize`), and place the
cursor just past the count. -/
def RowsIter.new (buffer : List Nat) (rows_start : Nat) : RowsIter :=
  let rows_count := usizeOfI32 (i32FromBeBytes ((buffer.drop rows_start).take 4))
  { buffer := buffer
    rows_count := rows_count
    remaining_rows_count := rows_count
    column_start := rows_start + 4 }

/-- `ColumnValue::column_value` for `Iter<T>`: read the 4-byte big-endian
length prefix at the cursor and advance past it; a positive length means the
next `length` bytes are the column value and the cursor advances past them,
otherwise (NULL = -1, UNSET = -2, or zero length) the column decoder is
invoked on the empty slice and the cursor stays right after the prefix. -/
def RowsIter.columnValue (it : RowsIter) : List Nat × RowsIter :=
  let length := i32FromBeBytes ((it.buffer.drop it.column_start).take 4)
  let cs := it.column_start + 4
  if 0 < length then
    ((it.buffer.drop cs).take length.toNat,
     { it with column_start := cs + length.toNat })
  else
    ([], { it with column_start := cs })

/-- Decoding one row of `cols` columns (`T::decode_row` for the hard-coded
tuple specs) reads the columns left to right through `column_value`. -/
def RowsIter.decodeRow : Nat → RowsIter → List (List Nat) × RowsIter
  | 0, it => ([], it)
  | c + 1, it =>
    let p := RowsIter.columnValue it
    let q := RowsIter.decodeRow c p.2
    (p.1 :: q.1, q.2)

/-- `Iterator::next` for `Iter<T>`: if rows remain, decrement the remaining
count and decode one row; otherwise yield `none` and leave the state alone. -/
def RowsIter.next (cols : Nat) (it : RowsIter) : Option (List (List Nat)) × RowsIter :=
  if 0 < it.remaining_rows_count then
    let p := RowsIter.decodeRow cols
      { it with remaining_rows_count := it.remaining_rows_count - 1 }
    (some p.1, p.2)
  else (none, it)

/-- `k` successive calls of `next`, collecting the yielded items. -/
def RowsIter.nextN (cols : Nat) : Nat → RowsIter → List (Option (List (List Nat))) × RowsIter
  | 0, it => ([], it)
  | k + 1, it =>
    let p := RowsIter.next cols it
    let q := RowsIter.nextN cols k p.2
    (p.1 :: q.1, q.2)

theorem RowsIter.columnValue_remaining (it : RowsIter) :
    it.columnValue.2.remaining_rows_count = it.remaining_rows_count := by
  unfold RowsIter.columnValue
  dsimp only
  split <;> rfl

theorem RowsIter.decodeRow_remaining (cols : Nat) (it : RowsIter) :
    (RowsIter.decodeRow cols it).2.remaining_rows_count = it.remaining_rows_count := by
  induction cols generalizing it with
  | zero => rfl
  | succ c ih =>
    unfold RowsIter.decodeRow
    dsimp only
    rw [ih, RowsIter.columnValue_remaining]

theorem RowsIter.nextN_isSome (cols k : Nat) (it : RowsIter) :
    ((RowsIter.nextN cols k it).1.map Option.isSome) =
      List.replicate (min k it.remaining_rows_count) true ++
        List.replicate (k - it.remaining_rows_count) false := by
  induction k generalizing it with
  | zero => simp [RowsIter.nextN]
  | succ k ih =>
    by_cases h : 0 < it.remaining_rows_count
    · have hnext1 : (RowsIter.next cols it).1 = some (RowsIter.decodeRow cols
          { it with remaining_rows_count := it.remaining_rows_count - 1 }).1 := by
        unfold RowsIter.next
        rw [if_pos h]
      have hnext2 : (RowsIter.next cols it).2.remaining_rows_count =
          it.remaining_rows_count - 1 := by
        unfold RowsIter.next
        rw [if_pos h]
        dsimp only
        rw [RowsIter.decodeRow_remaining]
      show ((RowsIter.next cols it).1 ::
        (RowsIter.nextN cols k (RowsIter.next cols it).2).1).map Option.isSome = _
      rw [List.map_cons, hnext1, ih ((RowsIter.next cols it).2), hnext2]
      obtain ⟨r, hr⟩ : ∃ r, it.remaining_rows_count = r + 1 :=
        ⟨it.remaining_rows_count - 1, by omega⟩
      rw [hr]
      rw [show r + 1 - 1 = r by omega, show min (k + 1) (r + 1) = min k r + 1 by omega,
        show k + 1 - (r + 1) = k - r by omega]
      simp [List.replicate_succ]
    · have h0 : it.remaining_rows_count = 0 := by omega
      have hnext1 : (RowsIter.next cols it).1 = none := by
        unfold RowsIter.next
        rw [if_neg h]
      have hnext2 : (RowsIter.next cols it).2 = it := by
        unfold RowsIter.next
        rw [if_neg h]
      show ((RowsIter.next cols it).1 ::
        (RowsIter.nextN cols k (RowsIter.next cols it).2).1).map Option.isSome = _
      rw [List.map_cons, hnext1, hnext2, ih it, h0]
      simp [List.replicate_succ]

/-- C9: a rows iterator built over a Rows body declaring `n` rows yields a
decoded row on exactly the first `n` calls of `next` and `none` on every call
thereafter: among any `k` successive calls, exactly `min k n` yield rows, and
the iterator never yields more rows than the declared count. -/
theorem rows_iter_yields_declared_count (cols k n : Nat) (buffer : List Nat)
    (rows_start : Nat) (hn : (RowsIter.new buffer rows_start).rows_count = n) :
    ((RowsIter.nextN cols k (RowsIter.new buffer rows_start)).1.map Option.isSome) =
      List.replicate (min k n) true ++ List.replicate (k - n) false := by
  have hrem : (RowsIter.new buffer rows_start).remaining_rows_count = n := hn
  rw [RowsIter.nextN_isSome, hrem]

/-- Witness for C9: a body declaring 2 single-column rows yields rows on
exactly the first 2 of 4 calls. -/
theorem rows_iter_yields_declared_count_witness :
    ((RowsIter.nextN 1 4 (RowsIter.new [0, 0, 0, 2, 0, 0, 0, 1, 7, 0, 0, 0, 1, 8] 0)).1.map
      Option.isSome) = [true, true, false, false] := by
  have h := rows_iter_yields_declared_count 1 4 2 [0, 0, 0, 2, 0, 0, 0, 1, 7, 0, 0, 0, 1, 8] 0
    (by decide)
  rw [h]
  decide

/-- C10: when the 4-byte length prefix at the cursor is ≤ 0 (NULL = -1,
UNSET = -2, or a zero-length value), `column_value` advances the cursor only
past the prefix and hands the column decoder the empty byte slice — so a NULL
column and a zero-length column value are indistinguishable at the decoding
interface. -/
theorem column_value_nonpositive_empty (it : RowsIter)
    (hlen : i32FromBeBytes ((it.buffer.drop it.column_start).take 4) ≤ 0) :
    it.columnValue = ([], { it with column_start := it.column_start + 4 }) := by
  unfold RowsIter.columnValue
  dsimp only
  rw [if_neg (by omega)]

/-- Witness for C10: a NULL column (prefix `FF FF FF FF`, value -1) yields the
empty slice and a cursor advance of exactly 4. -/
theorem column_value_nonpositive_empty_witness :
    RowsIter.columnValue ⟨[255, 255, 255, 255], 1, 1, 0⟩ =
      ([], ⟨[255, 255, 255, 255], 1, 1, 4⟩) :=
  column_value_nonpositive_empty ⟨[255, 255, 255, 255], 1, 1, 0⟩ (by decide)

/-- Left-rotation of a 32-bit word by `s` bits. -/
def rotl32 (x s : Nat) : Nat :=
  x * 2 ^ s % 4294967296 + x / 2 ^ (32 - s)

/-- Bitwise complement of a 32-bit word. -/
def not32 (x : Nat) : Nat := 4294967295 - x

/-- The 64 MD5 sine-table constants (RFC 1321), used by the `md5` crate the
driver delegates to. -/
def md5K : List Nat :=
  [0xd76aa478, 0xe8c7b756, 0x242070db, 0xc1bdceee,
   0xf57c0faf, 0x4787c62a, 0xa8304613, 0xfd469501,
   0x698098d8, 0x8b44f7af, 0xffff5bb1, 0x895cd7be,
   0x6b901122, 0xfd987193, 0xa679438e, 0x49b40821,
   0xf61e2562, 0xc040b340, 0x265e5a51, 0xe9b6c7aa,
   0xd62f105d, 0x02441453, 0xd8a1e681, 0xe7d3fbc8,
   0x21e1cde6, 0xc33707d6, 0xf4d50d87, 0x455a14ed,
   0xa9e3e905, 0xfcefa3f8, 0x676f02d9, 0x8d2a4c8a,
   0xfffa3942, 0x8771f681, 0x6d9d6122, 0xfde5380c,
   0xa4beea44, 0x4bdecfa9, 0xf6bb4b60, 0xbebfbc70,
   0x289b7ec6, 0xeaa127fa, 0xd4ef3085, 0x04881d05,
   0xd9d4d039, 0xe6db99e5, 0x1fa27cf8, 0xc4ac5665,
   0xf4292244, 0x432aff97, 0xab9423a7, 0xfc93a039,
   0x655b59c3, 0x8f0ccc92, 0xffeff47d, 0x85845dd1,
   0x6fa87e4f, 0xfe2ce6e0, 0xa3014314, 0x4e0811a1,
   0xf7537e82, 0xbd3af235, 0x2ad7d2bb, 0xeb86d391]

/-- The 64 per-round rotation amounts of MD5 (RFC 1321). -/
def md5S : List Nat :=
  [7, 12, 17, 22, 7, 12, 17, 22, 7, 12, 17, 22, 7, 12, 17, 22,
   5, 9, 14, 20, 5, 9, 14, 20, 5, 9, 14, 20, 5, 9, 14, 20,
   4, 11, 16, 23, 4, 11, 16, 23, 4, 11, 16, 23, 4, 11, 16, 23,
   6, 10, 15, 21, 6, 10, 15, 21, 6, 10, 15, 21, 6, 10, 15, 21]

/-- The eight little-endian bytes of a 64-bit value. -/
def u64le (n : Nat) : List Nat :=
  [n % 256, n / 2 ^ 8 % 256, n / 2 ^ 16 % 256, n / 2 ^ 24 % 256,
   n / 2 ^ 32 % 256, n / 2 ^ 40 % 256, n / 2 ^ 48 % 256, n / 2 ^ 56 % 256]

/-- The four little-endian bytes of a 32-bit word. -/
def u32le (n : Nat) : List Nat :=
  [n % 256, n / 2 ^ 8 % 256, n / 2 ^ 16 % 256, n / 2 ^ 24 % 256]

/-- MD5 padding: append `0x80`, zero bytes up to 56 mod 64, then the message
bit length as a little-endian 64-bit value. -/
def md5Pad (msg : List Nat) : List Nat :=
  let zeros := (119 - msg.length % 64) % 64
  msg ++ [128] ++ List.replicate zeros 0 ++ u64le (msg.length * 8 % 2 ^ 64)

/-- The sixteen little-endian 32-bit words of a 64-byte block. -/
def md5Words (block : List Nat) : List Nat :=
  (List.range 16).map fun j =>
    block.getD (4 * j) 0 + 256 * block.getD (4 * j + 1) 0 +
      65536 * block.getD (4 * j + 2) 0 + 16777216 * block.getD (4 * j + 3) 0

/-- One of the 64 MD5 rounds on the running state `(a, b, c, d)`. -/
def md5Step (M : List Nat) (st : Nat × Nat × Nat × Nat) (i : Nat) : Nat × Nat × Nat × Nat :=
  let a := st.1
  let b := st.2.1
  let c := st.2.2.1
  let d := st.2.2.2
  let f :=
    if i < 16 then (b &&& c) ||| (not32 b &&& d)
    else if i < 32 then (d &&& b) ||| (not32 d &&& c)
    else if i < 48 then b ^^^ c ^^^ d
    else c ^^^ (b ||| not32 d)
  let g :=
    if i < 16 then i
    else if i < 32 then (5 * i + 1) % 16
    else if i < 48 then (3 * i + 5) % 16
    else 7 * i % 16
  let f2 := (f + a + md5K.getD i 0 + M.getD g 0) % 4294967296
  (d, (b + rotl32 f2 (md5S.getD i 0)) % 4294967296, b, c)

/-- Process one 64-byte block: run the 64 rounds and add the result into the
incoming state, wrapping at 32 bits. -/
def md5Block (st : Nat × Nat × Nat × Nat) (block : List Nat) : Nat × Nat × Nat × Nat :=
  let M := md5Words block
  let r := (List.range 64).foldl (md5Step M) st
  ((st.1 + r.1) % 4294967296, (st.2.1 + r.2.1) % 4294967296,
   (st.2.2.1 + r.2.2.1) % 4294967296, (st.2.2.2 + r.2.2.2) % 4294967296)

/-- Split a byte string into 64-byte blocks (the fuel argument bounds the
recursion and is instantiated with the list length). -/
def md5ChunksAux : Nat → List Nat → List (List Nat)
  | 0, _ => []
  | _, [] => []
  | fuel + 1, l => l.take 64 :: md5ChunksAux fuel (l.drop 64)

/-- The 64-byte blocks of a byte string. -/
def md5Chunks (l : List Nat) : List (List Nat) := md5ChunksAux l.length l

/-- The MD5 initial state (RFC 1321). -/
def md5Init : Nat × Nat × Nat × Nat := (0x67452301, 0xefcdab89, 0x98badcfe, 0x10325476)

/-- The 16-byte MD5 digest of a byte string (RFC 1321), the function computed
by the `md5`/`extendhash` crates the driver calls. -/
def md5 (msg : List Nat) : List Nat :=
  let final := (md5Chunks (md5Pad msg)).foldl md5Block md5Init
  u32le final.1 ++ u32le final.2.1 ++ u32le final.2.2.1 ++ u32le final.2.2.2

theorem md5_rfc_vector_empty :
    md5 [] = [0xd4, 0x1d, 0x8c, 0xd9, 0x8f, 0x00, 0xb2, 0x04,
      0xe9, 0x80, 0x09, 0x98, 0xec, 0xf8, 0x42, 0x7e] := by
  rfl

theorem md5_rfc_vector_abc :
    md5 [0x61, 0x62, 0x63] = [0x90, 0x01, 0x50, 0x98, 0x3c, 0xd2, 0x4f, 0xb0,
      0xd6, 0x96, 0x3f, 0x7d, 0x28, 0xe1, 0x7f, 0x72] := by
  rfl

/-- `PrepareRequest` from `scylla-rs/src/app/worker/prepare.rs` (statement as
its UTF-8 bytes). -/
structure PrepareRequest where
  keyspace : Option (List Nat)
  statement : List Nat
  token : Int
  deriving DecidableEq, Repr

/-- `PrepareWorker`: the expected prepared id, the retry counter, and the
request. -/
structure PrepareWorker where
  id : List Nat
  retries : Nat
  request : PrepareRequest
  deriving DecidableEq, Repr

/-- `impl From<PrepareRequest> for PrepareWorker`: the expected id is the MD5
digest of the statement bytes. -/
def PrepareWorker.fromRequest (request : PrepareRequest) : PrepareWorker :=
  { id := md5 request.statement
    retries := 0
    request := request }

/-- `Select::SELECT_ID` from `scylla/src/access/select.rs`: the static
prepared-statement id constant of a keyspace is the MD5 hash of its select
statement bytes. -/
def selectId (selectStatement : List Nat) : List Nat := md5 selectStatement

/-- C4: the prepare worker built from a prepare request for a statement `S`
carries as its 16-byte prepared id exactly `MD5(S-bytes)`, and a keyspace's
static `SELECT_ID` constant is likewise the MD5 hash of its statement, so the
two agree on the same statement. -/
theorem prepared_id_is_md5 (r : PrepareRequest) (stmt : List Nat) :
    (PrepareWorker.fromRequest r).id = md5 r.statement ∧
    selectId stmt = md5 stmt ∧
    (PrepareWorker.fromRequest { keyspace := none, statement := stmt, token := 0 }).id =
      selectId stmt ∧
    (md5 stmt).length = 16 := by
  refine ⟨rfl, rfl, rfl, ?_⟩
  simp [md5, u32le]

/-- Modelled from the spec: the per-connection reporter state (the reporter
source is not in the snapshot): a free-list of stream ids and the fixed table
of stream slots, `none` meaning free and `some w` meaning worker `w` is parked
on that stream. -/
structure StreamState where
  free : List Nat
  slots : List (Option Nat)
  deriving DecidableEq, Repr

/-- The number of stream slots per connection (ids `0..=32767`). -/
def streamSlotCount : Nat := 32768

/-- A reporter step: `send` a request for a worker (allocate a stream id from
the free list) or `deliver` the response that arrived for a stream id. -/
inductive StreamOp where
  | send (worker : Nat)
  | deliver (stream : Nat)
  deriving DecidableEq, Repr

/-- The initial reporter state: all 32768 stream ids free, all slots empty. -/
def StreamState.init : StreamState :=
  { free := List.range streamSlotCount
    slots := List.replicate streamSlotCount none }

/-- Modelled from the spec: one reporter transition.  `send` pops a free
stream id and parks the worker in its slot (returning the assignment), or
applies backpressure when no id is free; `deliver` moves the worker out of
the slot, releases the id to the free list, and hands the response to that
worker, ignoring responses on free streams. -/
def StreamState.send (s : StreamState) (w : Nat) : StreamState × Option (Nat × Nat) :=
  match s.free with
  | [] => (s, none)
  | id :: rest =>
    ({ free := rest, slots := s.slots.set id (some w) }, some (id, w))

def StreamState.deliver (s : StreamState) (id : Nat) : StreamState × Option (Nat × Nat) :=
  match s.slots.getD id none with
  | some w => ({ free := id :: s.free, slots := s.slots.set id none }, some (id, w))
  | none => (s, none)

def StreamState.step (s : StreamState) : StreamOp → StreamState × Option (Nat × Nat)
  | .send w => s.send w
  | .deliver id => s.deliver id

/-- The reporter invariant: the free list has no duplicates, the slot table
has its fixed size, every listed id is in range, and an in-range id is on the
free list exactly when its slot is empty. -/
def StreamState.Inv (s : StreamState) : Prop :=
  s.free.Nodup ∧
  s.slots.length = streamSlotCount ∧
  (∀ id, id ∈ s.free → id < streamSlotCount) ∧
  (∀ id, id < streamSlotCount → (id ∈ s.free ↔ s.slots.getD id none = none))

theorem streamState_init_free : StreamState.init.free = List.range streamSlotCount := by
  simp only [StreamState.init]

theorem streamState_init_slots :
    StreamState.init.slots = List.replicate streamSlotCount none := by
  simp only [StreamState.init]

theorem streamState_init_inv : StreamState.Inv StreamState.init := by
  refine ⟨?_, ?_, ?_, ?_⟩
  · rw [streamState_init_free]
    exact List.nodup_range _
  · rw [streamState_init_slots]
    exact List.length_replicate _ _
  · intro id hid
    rw [streamState_init_free] at hid
    exact List.mem_range.mp hid
  · intro id hid
    rw [streamState_init_free, streamState_init_slots]
    constructor
    · intro _
      rw [List.getD_eq_getElem?_getD, List.getElem?_replicate, if_pos hid]
      rfl
    · intro _
      exact List.mem_range.mpr hid

/-- C8: on the 32768-entry stream-slot table, allocation never assigns a
stream id whose slot is non-free, and delivering a response returns the slot
to the free list exactly once (it was not free before, and appears once
after) — the transition also preserves the invariant, so a request can never
receive a response destined for a prior user of its slot. -/
theorem stream_slot_safety (s : StreamState) (op : StreamOp) (hInv : s.Inv) :
    (StreamState.step s op).1.Inv ∧
    (∀ w id, op = .send w → (StreamState.step s op).2 = some (id, w) →
      s.slots.getD id none = none) ∧
    (∀ id w, op = .deliver id → (StreamState.step s op).2 = some (id, w) →
      (StreamState.step s op).1.free.count id = 1 ∧ s.free.count id = 0) := by
  obtain ⟨hnd, hlen, hmem, hiff⟩ := hInv
  rcases op with w | id
  · rcases hfree : s.free with _ | ⟨id0, rest⟩
    · have hstep : StreamState.step s (.send w) = (s, none) := by
        show StreamState.send s w = _
        unfold StreamState.send
        rw [hfree]
      rw [hstep]
      refine ⟨⟨hnd, hlen, hmem, hiff⟩, ?_, ?_⟩
      · intro w' id' _ hsome
        exact Option.noConfusion hsome
      · intro id' w' hop
        exact absurd hop (by simp)
    · have hid0 : id0 < streamSlotCount :=
        hmem id0 (by rw [hfree]; exact List.mem_cons_self _ _)
      have hid0lt : id0 < s.slots.length := by omega
      have hndc : (id0 :: rest).Nodup := hfree ▸ hnd
      have hstep : StreamState.step s (.send w) =
          ({ free := rest, slots := s.slots.set id0 (some w) }, some (id0, w)) := by
        show StreamState.send s w = _
        unfold StreamState.send
        rw [hfree]
      rw [hstep]
      refine ⟨⟨?_, ?_, ?_, ?_⟩, ?_, ?_⟩
      · exact (List.nodup_cons.mp hndc).2
      · rw [List.length_set]
        exact hlen
      · intro j hj
        exact hmem j (by rw [hfree]; exact List.mem_cons_of_mem _ hj)
      · intro j hj
        by_cases heq : j = id0
        · subst heq
          constructor
          · intro hin
            exact absurd hin (List.nodup_cons.mp hndc).1
          · intro hslot
            rw [List.getD_eq_getElem?_getD, List.getElem?_set_self hid0lt] at hslot
            exact Option.noConfusion hslot
        · rw [List.getD_eq_getElem?_getD,
            List.getElem?_set_ne (fun h => heq h.symm), ← List.getD_eq_getElem?_getD]
          have hj2 := hiff j hj
          rw [hfree] at hj2
          constructor
          · intro hin
            exact hj2.mp (List.mem_cons_of_mem _ hin)
          · intro hslot
            rcases List.mem_cons.mp (hj2.mpr hslot) with h | h
            · exact absurd h heq
            · exact h
      · intro w' id' hop hsome
        injection hop with hop
        subst hop
        have h1 : id0 = id' := congrArg Prod.fst (Option.some.inj hsome)
        subst h1
        exact (hiff id0 hid0).mp (by rw [hfree]; exact List.mem_cons_self _ _)
      · intro id' w' hop
        exact absurd hop (by simp)
  · rcases hslot : s.slots.getD id none with _ | w0
    · have hstep : StreamState.step s (.deliver id) = (s, none) := by
        show StreamState.deliver s id = _
        unfold StreamState.deliver
        rw [hslot]
      rw [hstep]
      refine ⟨⟨hnd, hlen, hmem, hiff⟩, ?_, ?_⟩
      · intro w' id' hop
        exact absurd hop (by simp)
      · intro id' w' _ hsome
        exact Option.noConfusion hsome
    · have hidlt : id < streamSlotCount := by
        by_contra hge
        rw [List.getD_eq_getElem?_getD, List.getElem?_eq_none (by omega)] at hslot
        exact Option.noConfusion hslot
      have hidslen : id < s.slots.length := by omega
      have hnotfree : id ∉ s.free := by
        intro hin
        rw [(hiff id hidlt).mp hin] at hslot
        exact Option.noConfusion hslot
      have hstep : StreamState.step s (.deliver id) =
          ({ free := id :: s.free, slots := s.slots.set id none }, some (id, w0)) := by
        show StreamState.deliver s id = _
        unfold StreamState.deliver
        rw [hslot]
      rw [hstep]
      refine ⟨⟨?_, ?_, ?_, ?_⟩, ?_, ?_⟩
      · exact List.nodup_cons.mpr ⟨hnotfree, hnd⟩
      · rw [List.length_set]
        exact hlen
      · intro j hj
        rcases List.mem_cons.mp hj with h | h
        · omega
        · exact hmem j h
      · intro j hj
        by_cases heq : j = id
        · subst heq
          constructor
          · intro _
            rw [List.getD_eq_getElem?_getD, List.getElem?_set_self hidslen]
            rfl
          · intro _
            exact List.mem_cons_self _ _
        · rw [List.getD_eq_getElem?_getD,
            List.getElem?_set_ne (fun h => heq h.symm), ← List.getD_eq_getElem?_getD]
          have hj2 := hiff j hj
          constructor
          · intro hin
            rcases List.mem_cons.mp hin with h | h
            · exact absurd h heq
            · exact hj2.mp h
          · intro hsl
            exact List.mem_cons_of_mem _ (hj2.mpr hsl)
      · intro w' id' hop
        exact absurd hop (by simp)
      · intro id' w' hop hsome
        injection hop with hop
        subst hop
        constructor
        · rw [List.count_cons_self, List.count_eq_zero_of_not_mem hnotfree]
        · exact List.count_eq_zero_of_not_mem hnotfree

/-- Witness for C8: one `send` step from the initial reporter state preserves
the invariant. -/
theorem stream_slot_safety_witness :
    (StreamState.step StreamState.init (.send 7)).1.Inv :=
  (stream_slot_safety StreamState.init (.send 7) streamState_init_inv).1

end Scylla
